import Mathlib

/-!
# Verification of the `ObjectExtension` typed property-accessor layer

Shallow embedding of `src/wasm/src/extensions/object.rs` (trait
`ObjectExtension` and its implementation for `js_sys::Object`), together
with a model of the external dynamic key-value store it drives
(`js_sys::Reflect` acting on an ordinary ECMAScript object with string
keys and data properties).

Modelling decisions:

* A JavaScript value (`wasm_bindgen::JsValue`) is the tagged union
  `JsValue` below.  JavaScript numbers are modelled exactly as rationals
  (`Rat`); IEEE-754 rounding is not modelled.
* A JavaScript object is modelled as an association list
  `List (String × JsValue)`; the first binding of a key is authoritative.
* `js_sys::Reflect::get` / `set` / `delete_property` on an ordinary
  object with a string key never throw, so the `Result<_, JsValue>` they
  return in Rust is modelled as the plain payload.  Per ECMAScript
  `OrdinarySet` and `OrdinaryDelete` on an ordinary extensible object
  with configurable data properties, `Reflect.set` returns `true`, and
  `Reflect.deleteProperty` returns `true` both when a binding was
  removed and when none existed.
* The crate modules `convert`, `error`, `utils` and
  `extensions/jsvalue.rs` are repository code not among the reviewed
  sources; the definitions they provide are modelled from the spec and
  are marked `Modelled from the spec:` in their doc comments.
-/

namespace WorkflowWasm

/-- A JavaScript value (`wasm_bindgen::JsValue`): the tagged union of the
dynamically-typed kinds the accessor layer distinguishes.  Numbers are
modelled exactly as rationals. -/
inductive JsValue where
  | undefined : JsValue
  | null : JsValue
  | boolean (b : Bool) : JsValue
  | number (n : Rat) : JsValue
  | string (s : String) : JsValue
  | array (elems : List JsValue) : JsValue
  | object (fields : List (String × JsValue)) : JsValue
deriving Repr

mutual

/-- Decidable equality of JavaScript values (structural, by recursion
through the nested lists). -/
def JsValue.decEq : (a b : JsValue) → Decidable (a = b)
  | .undefined, .undefined => .isTrue rfl
  | .null, .null => .isTrue rfl
  | .boolean a, .boolean b =>
    if h : a = b then .isTrue (by rw [h]) else .isFalse (fun hc => h (by injection hc))
  | .number a, .number b =>
    if h : a = b then .isTrue (by rw [h]) else .isFalse (fun hc => h (by injection hc))
  | .string a, .string b =>
    if h : a = b then .isTrue (by rw [h]) else .isFalse (fun hc => h (by injection hc))
  | .array xs, .array ys =>
    match JsValue.decEqList xs ys with
    | .isTrue h => .isTrue (by rw [h])
    | .isFalse h => .isFalse (fun hc => h (by injection hc))
  | .object xs, .object ys =>
    match JsValue.decEqFields xs ys with
    | .isTrue h => .isTrue (by rw [h])
    | .isFalse h => .isFalse (fun hc => h (by injection hc))
  | .undefined, .null => .isFalse (fun h => nomatch h)
  | .undefined, .boolean _ => .isFalse (fun h => nomatch h)
  | .undefined, .number _ => .isFalse (fun h => nomatch h)
  | .undefined, .string _ => .isFalse (fun h => nomatch h)
  | .undefined, .array _ => .isFalse (fun h => nomatch h)
  | .undefined, .object _ => .isFalse (fun h => nomatch h)
  | .null, .undefined => .isFalse (fun h => nomatch h)
  | .null, .boolean _ => .isFalse (fun h => nomatch h)
  | .null, .number _ => .isFalse (fun h => nomatch h)
  | .null, .string _ => .isFalse (fun h => nomatch h)
  | .null, .array _ => .isFalse (fun h => nomatch h)
  | .null, .object _ => .isFalse (fun h => nomatch h)
  | .boolean _, .undefined => .isFalse (fun h => nomatch h)
  | .boolean _, .null => .isFalse (fun h => nomatch h)
  | .boolean _, .number _ => .isFalse (fun h => nomatch h)
  | .boolean _, .string _ => .isFalse (fun h => nomatch h)
  | .boolean _, .array _ => .isFalse (fun h => nomatch h)
  | .boolean _, .object _ => .isFalse (fun h => nomatch h)
  | .number _, .undefined => .isFalse (fun h => nomatch h)
  | .number _, .null => .isFalse (fun h => nomatch h)
  | .number _, .boolean _ => .isFalse (fun h => nomatch h)
  | .number _, .string _ => .isFalse (fun h => nomatch h)
  | .number _, .array _ => .isFalse (fun h => nomatch h)
  | .number _, .object _ => .isFalse (fun h => nomatch h)
  | .string _, .undefined => .isFalse (fun h => nomatch h)
  | .string _, .null => .isFalse (fun h => nomatch h)
  | .string _, .boolean _ => .isFalse (fun h => nomatch h)
  | .string _, .number _ => .isFalse (fun h => nomatch h)
  | .string _, .array _ => .isFalse (fun h => nomatch h)
  | .string _, .object _ => .isFalse (fun h => nomatch h)
  | .array _, .undefined => .isFalse (fun h => nomatch h)
  | .array _, .null => .isFalse (fun h => nomatch h)
  | .array _, .boolean _ => .isFalse (fun h => nomatch h)
  | .array _, .number _ => .isFalse (fun h => nomatch h)
  | .array _, .string _ => .isFalse (fun h => nomatch h)
  | .array _, .object _ => .isFalse (fun h => nomatch h)
  | .object _, .undefined => .isFalse (fun h => nomatch h)
  | .object _, .null => .isFalse (fun h => nomatch h)
  | .object _, .boolean _ => .isFalse (fun h => nomatch h)
  | .object _, .number _ => .isFalse (fun h => nomatch h)
  | .object _, .string _ => .isFalse (fun h => nomatch h)
  | .object _, .array _ => .isFalse (fun h => nomatch h)
termination_by a _ => sizeOf a

/-- Decidable equality of lists of JavaScript values. -/
def JsValue.decEqList : (xs ys : List JsValue) → Decidable (xs = ys)
  | [], [] => .isTrue rfl
  | [], _ :: _ => .isFalse (fun h => nomatch h)
  | _ :: _, [] => .isFalse (fun h => nomatch h)
  | x :: xs, y :: ys =>
    match JsValue.decEq x y with
    | .isFalse h => .isFalse (fun hc => h (by injection hc))
    | .isTrue h1 =>
      match JsValue.decEqList xs ys with
      | .isTrue h2 => .isTrue (by rw [h1, h2])
      | .isFalse h2 => .isFalse (fun hc => h2 (by injection hc))
termination_by xs _ => sizeOf xs

/-- Decidable equality of field lists of JavaScript objects. -/
def JsValue.decEqFields : (xs ys : List (String × JsValue)) → Decidable (xs = ys)
  | [], [] => .isTrue rfl
  | [], _ :: _ => .isFalse (fun h => nomatch h)
  | _ :: _, [] => .isFalse (fun h => nomatch h)
  | (k, v) :: xs, (k', v') :: ys =>
    if hk : k = k' then
      match JsValue.decEq v v' with
      | .isFalse h => .isFalse (fun hc => h (by injection hc with h1 h2; injection h1))
      | .isTrue h1 =>
        match JsValue.decEqFields xs ys with
        | .isTrue h2 => .isTrue (by rw [hk, h1, h2])
        | .isFalse h2 => .isFalse (fun hc => h2 (by injection hc))
    else
      .isFalse (fun hc => hk (by injection hc with h1 h2; injection h1))
termination_by xs _ => sizeOf xs

end

instance : DecidableEq JsValue := JsValue.decEq

/-- A JavaScript object viewed as a key-value store: an association list
with string keys, first binding authoritative. -/
abbrev Obj := List (String × JsValue)

namespace Reflect

/-- `js_sys::Reflect::get` on an ordinary object with a string key:
the value of the first binding of the key, or `undefined` when the key
is absent (ECMAScript `OrdinaryGet`; never throws for an object target). -/
def get (o : Obj) (k : String) : JsValue :=
  match o.lookup k with
  | some v => v
  | none => JsValue.undefined

/-- Replace the first binding of `k` by `v`, or append `(k, v)` when no
binding exists (ECMAScript `OrdinarySet` on an extensible ordinary object). -/
def setFields (o : Obj) (k : String) (v : JsValue) : Obj :=
  match o with
  | [] => [(k, v)]
  | (k', v') :: rest =>
    if k' = k then (k, v) :: rest else (k', v') :: setFields rest k v

/-- `js_sys::Reflect::set` on an ordinary object: stores the binding and
returns the store's verdict, which for an extensible ordinary object with
writable data properties is always `true`. -/
def set (o : Obj) (k : String) (v : JsValue) : Obj × Bool :=
  (setFields o k v, true)

/-- `js_sys::Reflect::delete_property` on an ordinary object: removes any
binding of `k` and returns the store's verdict.  ECMAScript
`OrdinaryDelete` returns `true` when the property is configurable and
also when no such property exists; it returns `false` only for a
non-configurable property, which plain data assignment never creates. -/
def deleteProperty (o : Obj) (k : String) : Obj × Bool :=
  (o.filter (fun p => !(p.1 == k)), true)

end Reflect

/-- The crate's error type (`crate::error::Error`), restricted to the
constructors the accessor surface uses: `Error::MissingProperty` (visible
in `object.rs`) and the variant produced by `Error::custom`, which wraps
the `Display` rendering of a conversion failure. -/
inductive Error where
  | MissingProperty (prop : String) : Error
  | custom (msg : String) : Error
deriving DecidableEq, Repr

/-- A Rust `TryFrom<JsValue>` conversion for a target type `T`, with the
`Display` rendering of its error type: the shape under which the generic
getters are polymorphic. -/
abbrev Conv (T : Type) := JsValue → Except String T

namespace JsValue

/-- `JsValue::is_undefined`. -/
def isUndefined : JsValue → Bool
  | .undefined => true
  | _ => false

/-- `JsValue::as_string` (`wasm_bindgen`): `Some` exactly when the value
is a JavaScript string. -/
def asString : JsValue → Option String
  | .string s => some s
  | _ => none

/-- `JsValue::as_bool` (`wasm_bindgen`): `Some` exactly when the value is
a JavaScript boolean. -/
def asBool : JsValue → Option Bool
  | .boolean b => some b
  | _ => none

/-- `JsValue::is_object` (`wasm_bindgen`): `typeof v === "object" && v !== null`,
so `true` for plain objects and arrays, `false` for `null` and every
primitive. -/
def isObjectKind : JsValue → Bool
  | .object _ => true
  | .array _ => true
  | _ => false

end JsValue

/-- `js_sys::Object::try_from(&JsValue)`: `Some` of the value viewed as an
object exactly when it is object-kind (`is_object`). -/
def objectTryFrom (v : JsValue) : Option JsValue :=
  if v.isObjectKind then some v else none

/-- Saturating truncation of a non-negative rational to `{0, ..., hi}`,
the behaviour of Rust's `as` cast from `f64` to an unsigned integer type
(truncate toward zero, clamp to the target range). -/
def ratToSat (q : Rat) (hi : Nat) : Nat :=
  if q < 0 then 0 else min (Int.floor q).toNat hi

/-- Value of a hexadecimal digit character, if it is one. -/
def hexDigitVal (c : Char) : Option Nat :=
  if '0' ≤ c ∧ c ≤ '9' then some (c.toNat - '0'.toNat)
  else if 'a' ≤ c ∧ c ≤ 'f' then some (c.toNat - 'a'.toNat + 10)
  else if 'A' ≤ c ∧ c ≤ 'F' then some (c.toNat - 'A'.toNat + 10)
  else none

/-- Decode a list of characters as consecutive two-digit hexadecimal
bytes; `none` on an odd length or a non-hex character. -/
def hexPairs : List Char → Option (List Nat)
  | [] => some []
  | [_] => none
  | c1 :: c2 :: rest => do
    let hi ← hexDigitVal c1
    let lo ← hexDigitVal c2
    let tail ← hexPairs rest
    pure ((hi * 16 + lo) :: tail)

/-- Decode a hex-encoded string into its byte sequence. -/
def hexDecode (s : String) : Option (List Nat) :=
  hexPairs s.toList

/-- A single array element read as a byte: a number that is an integer in
`{0, ..., 255}`. -/
def byteOfJsValue : JsValue → Option Nat
  | .number q => if q.den = 1 ∧ 0 ≤ q.num ∧ q.num < 256 then some q.num.toNat else none
  | _ => none

/-- Modelled from the spec: `JsValueExtension::try_as_vec_u8`
(`extensions/jsvalue.rs`, not among the reviewed sources).  Per the spec,
it "accepts either a hex-encoded string or an array-of-numbers
representation and normalizes both into a byte sequence; fails if the
value is neither".  It receives only the value — not the property name —
so its errors cannot mention the property. -/
def JsValue.try_as_vec_u8 : JsValue → Except Error (List Nat)
  | .string s =>
    match hexDecode s with
    | some bytes => .ok bytes
    | none => .error (.custom "invalid hex string")
  | .array vs =>
    match vs.mapM byteOfJsValue with
    | some bytes => .ok bytes
    | none => .error (.custom "invalid byte array")
  | _ => .error (.custom "expected hex string or byte array")

/-- Modelled from the spec: coercion kernel of `try_get_string_from_prop`
(crate `utils` module, not among the reviewed sources).  Per the spec, an
absent slot (`undefined`) fails with `MissingProperty`, a string value is
returned as is, and any other kind is a coercion failure — "no implicit
stringification of numbers or booleans". -/
def stringOfProp (prop : String) : JsValue → Except Error String
  | .undefined => .error (.MissingProperty prop)
  | .string s => .ok s
  | _ => .error (.custom ("property is not a string: " ++ prop))

/-- Modelled from the spec: coercion kernel of `try_get_bool_from_prop`
(crate `utils` module).  Absent fails with `MissingProperty`; the value
must be exactly boolean-kind. -/
def boolOfProp (prop : String) : JsValue → Except Error Bool
  | .undefined => .error (.MissingProperty prop)
  | .boolean b => .ok b
  | _ => .error (.custom ("property is not a boolean: " ++ prop))

/-- Modelled from the spec: coercion kernel of the numeric getters
(`try_get_u8_from_prop` .. `try_get_u64_from_prop`, crate `utils`
module).  Absent fails with `MissingProperty`; a numeric-kind value is
truncated/saturated to the target width; any other kind is a coercion
failure. -/
def numOfProp (prop : String) (hi : Nat) : JsValue → Except Error Nat
  | .undefined => .error (.MissingProperty prop)
  | .number q => .ok (ratToSat q hi)
  | _ => .error (.custom ("property is not a number: " ++ prop))

/-- Modelled from the spec: coercion kernel of `try_get_f64_from_prop`
(crate `utils` module).  Absent fails with `MissingProperty`; a
numeric-kind value is returned as is; any other kind is a coercion
failure. -/
def f64OfProp (prop : String) : JsValue → Except Error Rat
  | .undefined => .error (.MissingProperty prop)
  | .number q => .ok q
  | _ => .error (.custom ("property is not a number: " ++ prop))

/-- Modelled from the spec: coercion kernel of `try_get_vec_from_prop`
(crate `utils` module).  Absent fails with `MissingProperty`; an
array-kind value yields its elements; any other kind is a coercion
failure. -/
def vecOfProp (prop : String) : JsValue → Except Error (List JsValue)
  | .undefined => .error (.MissingProperty prop)
  | .array vs => .ok vs
  | _ => .error (.custom ("property is not an array: " ++ prop))

/-- Modelled from the spec: `try_get_string_from_prop` (crate `utils`
module): one `Reflect::get` followed by the string coercion kernel. -/
def try_get_string_from_prop (o : Obj) (prop : String) : Except Error String :=
  stringOfProp prop (Reflect.get o prop)

/-- Modelled from the spec: `try_get_bool_from_prop` (crate `utils`
module). -/
def try_get_bool_from_prop (o : Obj) (prop : String) : Except Error Bool :=
  boolOfProp prop (Reflect.get o prop)

/-- Modelled from the spec: `try_get_u8_from_prop` (crate `utils`
module). -/
def try_get_u8_from_prop (o : Obj) (prop : String) : Except Error Nat :=
  numOfProp prop (2 ^ 8 - 1) (Reflect.get o prop)

/-- Modelled from the spec: `try_get_u16_from_prop` (crate `utils`
module). -/
def try_get_u16_from_prop (o : Obj) (prop : String) : Except Error Nat :=
  numOfProp prop (2 ^ 16 - 1) (Reflect.get o prop)

/-- Modelled from the spec: `try_get_u32_from_prop` (crate `utils`
module). -/
def try_get_u32_from_prop (o : Obj) (prop : String) : Except Error Nat :=
  numOfProp prop (2 ^ 32 - 1) (Reflect.get o prop)

/-- Modelled from the spec: `try_get_u64_from_prop` (crate `utils`
module). -/
def try_get_u64_from_prop (o : Obj) (prop : String) : Except Error Nat :=
  numOfProp prop (2 ^ 64 - 1) (Reflect.get o prop)

/-- Modelled from the spec: `try_get_f64_from_prop` (crate `utils`
module). -/
def try_get_f64_from_prop (o : Obj) (prop : String) : Except Error Rat :=
  f64OfProp prop (Reflect.get o prop)

/-- Modelled from the spec: `try_get_vec_from_prop` (crate `utils`
module). -/
def try_get_vec_from_prop (o : Obj) (prop : String) : Except Error (List JsValue) :=
  vecOfProp prop (Reflect.get o prop)

namespace ObjectExtension

/-- `ObjectExtension::get::<T>` (object.rs lines 94–101): one
`Reflect::get` — which yields `undefined` for an absent slot, with no
absence check — followed by `T::try_from`, whose error is wrapped by
`Error::custom`. -/
def get {T : Type} (o : Obj) (prop : String) (conv : Conv T) : Except Error T :=
  match conv (Reflect.get o prop) with
  | .ok t => .ok t
  | .error msg => .error (.custom msg)

/-- `ObjectExtension::try_get::<T>` (object.rs lines 103–114): `undefined`
yields `Ok(None)`; otherwise `T::try_from`, error wrapped by
`Error::custom`. -/
def try_get {T : Type} (o : Obj) (prop : String) (conv : Conv T) :
    Except Error (Option T) :=
  let js := Reflect.get o prop
  if js.isUndefined then .ok none
  else
    match conv js with
    | .ok t => .ok (some t)
    | .error msg => .error (.custom msg)

/-- `ObjectExtension::get_value` (object.rs lines 162–164). -/
def get_value (o : Obj) (prop : String) : Except Error JsValue :=
  .ok (Reflect.get o prop)

/-- `ObjectExtension::get_object` (object.rs lines 166–170):
`Object::try_from` on the raw value, with `Error::MissingProperty` when
that fails — both for an absent slot and for a present non-object. -/
def get_object (o : Obj) (prop : String) : Except Error JsValue :=
  match objectTryFrom (Reflect.get o prop) with
  | some w => .ok w
  | none => .error (.MissingProperty prop)

/-- `ObjectExtension::try_get_object` (object.rs lines 172–175). -/
def try_get_object (o : Obj) (prop : String) : Except Error (Option JsValue) :=
  .ok (objectTryFrom (Reflect.get o prop))

/-- `ObjectExtension::try_get_value` (object.rs lines 177–184). -/
def try_get_value (o : Obj) (prop : String) : Except Error (Option JsValue) :=
  let js := Reflect.get o prop
  if js = .undefined then .ok none else .ok (some js)

/-- `ObjectExtension::get_string` (object.rs lines 186–188). -/
def get_string (o : Obj) (prop : String) : Except Error String :=
  try_get_string_from_prop o prop

/-- `ObjectExtension::try_get_string` (object.rs lines 190–192):
`as_string` of the raw value, inside `Ok`. -/
def try_get_string (o : Obj) (prop : String) : Except Error (Option String) :=
  match get_value o prop with
  | .ok v => .ok v.asString
  | .error e => .error e

/-- `ObjectExtension::get_bool` (object.rs lines 194–196). -/
def get_bool (o : Obj) (prop : String) : Except Error Bool :=
  try_get_bool_from_prop o prop

/-- `ObjectExtension::try_get_bool` (object.rs lines 198–200). -/
def try_get_bool (o : Obj) (prop : String) : Except Error (Option Bool) :=
  match get_value o prop with
  | .ok v => .ok v.asBool
  | .error e => .error e

/-- `ObjectExtension::get_u8` (object.rs lines 202–204). -/
def get_u8 (o : Obj) (prop : String) : Except Error Nat :=
  try_get_u8_from_prop o prop

/-- `ObjectExtension::get_u16` (object.rs lines 206–208). -/
def get_u16 (o : Obj) (prop : String) : Except Error Nat :=
  try_get_u16_from_prop o prop

/-- `ObjectExtension::get_u32` (object.rs lines 210–212). -/
def get_u32 (o : Obj) (prop : String) : Except Error Nat :=
  try_get_u32_from_prop o prop

/-- `ObjectExtension::get_u64` (object.rs lines 214–216). -/
def get_u64 (o : Obj) (prop : String) : Except Error Nat :=
  try_get_u64_from_prop o prop

/-- `ObjectExtension::get_vec` (object.rs lines 218–220). -/
def get_vec (o : Obj) (prop : String) : Except Error (List JsValue) :=
  try_get_vec_from_prop o prop

/-- `ObjectExtension::get_vec_u8` (object.rs lines 222–225): one
`Reflect::get` followed by `try_as_vec_u8` on the raw value. -/
def get_vec_u8 (o : Obj) (prop : String) : Except Error (List Nat) :=
  (Reflect.get o prop).try_as_vec_u8

/-- `ObjectExtension::get_f64` (object.rs lines 235–237). -/
def get_f64 (o : Obj) (prop : String) : Except Error Rat :=
  try_get_f64_from_prop o prop

/-- `ObjectExtension::set` (object.rs lines 239–241): forwards
`Reflect::set`; the updated object is returned explicitly since the
embedding is pure. -/
def set (o : Obj) (prop : String) (v : JsValue) : Obj × Except Error Bool :=
  let p := Reflect.set o prop v
  (p.1, .ok p.2)

/-- `ObjectExtension::set_vec` (object.rs lines 243–249): builds an array
from the slice, in order, and stores it. -/
def set_vec (o : Obj) (prop : String) (values : List JsValue) :
    Obj × Except Error Bool :=
  let p := Reflect.set o prop (.array values)
  (p.1, .ok p.2)

/-- `ObjectExtension::set_properties` (object.rs lines 251–256): one
`Reflect::set` per pair, in order, each behind `?`. -/
def set_properties (o : Obj) (props : List (String × JsValue)) :
    Obj × Except Error Unit :=
  match props with
  | [] => (o, .ok ())
  | (k, v) :: rest => set_properties (Reflect.set o k v).1 rest

/-- `ObjectExtension::delete` (object.rs lines 258–260): forwards
`Reflect::delete_property`. -/
def delete (o : Obj) (prop : String) : Obj × Except Error Bool :=
  let p := Reflect.deleteProperty o prop
  (p.1, .ok p.2)

end ObjectExtension

/-- `Reflect::get` as a state transformer: ECMAScript `OrdinaryGet` of a
data property reads the object and leaves it as it was. -/
def Reflect.getSt (o : Obj) (k : String) : Obj × JsValue :=
  (o, Reflect.get o k)

/-- Every getter of the accessor surface is one `Reflect::get` followed
by a pure coercion kernel on the raw value; `getTraced` is that shape in
state-passing style, used to state the frame property of reads. -/
def ObjectExtension.getTraced {T : Type} (kernel : JsValue → Except Error T)
    (o : Obj) (prop : String) : Obj × Except Error T :=
  let p := Reflect.getSt o prop
  (p.1, kernel p.2)

/-- The coercion kernel of the generic `get::<T>`: apply `T::try_from`
and wrap its error with `Error::custom`. -/
def convKernel {T : Type} (conv : Conv T) : JsValue → Except Error T := fun js =>
  match conv js with
  | .ok t => .ok t
  | .error msg => .error (.custom msg)

/-- The coercion kernel of `get_object`: `Object::try_from`, with
`MissingProperty` on failure. -/
def objectOfProp (prop : String) : JsValue → Except Error JsValue := fun v =>
  match objectTryFrom v with
  | some w => .ok w
  | none => .error (.MissingProperty prop)

instance {ε α : Type} [DecidableEq ε] [DecidableEq α] :
    DecidableEq (Except ε α) := fun a b =>
  match a, b with
  | .ok x, .ok y =>
    if h : x = y then .isTrue (by rw [h]) else .isFalse (fun hc => h (by injection hc))
  | .error x, .error y =>
    if h : x = y then .isTrue (by rw [h]) else .isFalse (fun hc => h (by injection hc))
  | .ok _, .error _ => .isFalse (fun hc => nomatch hc)
  | .error _, .ok _ => .isFalse (fun hc => nomatch hc)

theorem JsValue.isUndefined_iff (v : JsValue) :
    v.isUndefined = true ↔ v = .undefined := by
  cases v <;> simp [JsValue.isUndefined]

theorem JsValue.isUndefined_eq_false {v : JsValue} (h : v ≠ .undefined) :
    v.isUndefined = false := by
  cases v
  case undefined => exact absurd rfl h
  all_goals rfl

theorem Reflect.get_of_lookup_none {o : Obj} {k : String}
    (h : o.lookup k = none) : Reflect.get o k = .undefined := by
  simp [Reflect.get, h]

theorem Reflect.get_setFields_self (o : Obj) (k : String) (v : JsValue) :
    Reflect.get (Reflect.setFields o k v) k = v := by
  induction o with
  | nil => simp [Reflect.setFields, Reflect.get, List.lookup_cons]
  | cons hd tl ih =>
    obtain ⟨k', v'⟩ := hd
    by_cases hk : k' = k
    · simp [Reflect.setFields, hk, Reflect.get, List.lookup_cons]
    · simpa [Reflect.setFields, hk, Reflect.get, List.lookup_cons,
        beq_false_of_ne (Ne.symm hk)] using ih

theorem Reflect.get_setFields_ne (o : Obj) {k k' : String} (v : JsValue)
    (h : k' ≠ k) : Reflect.get (Reflect.setFields o k v) k' = Reflect.get o k' := by
  induction o with
  | nil =>
    simp [Reflect.setFields, Reflect.get, List.lookup_cons, beq_false_of_ne h]
  | cons hd tl ih =>
    obtain ⟨k'', v''⟩ := hd
    by_cases hk : k'' = k
    · subst hk
      simp [Reflect.setFields, Reflect.get, List.lookup_cons, beq_false_of_ne h]
    · by_cases hk' : k' = k''
      · subst hk'
        simp [Reflect.setFields, hk, Reflect.get, List.lookup_cons]
      · simpa [Reflect.setFields, hk, Reflect.get, List.lookup_cons,
          beq_false_of_ne hk'] using ih

theorem Reflect.lookup_deleteProperty_self (o : Obj) (k : String) :
    ((Reflect.deleteProperty o k).1).lookup k = none := by
  induction o with
  | nil => simp [Reflect.deleteProperty]
  | cons hd tl ih =>
    obtain ⟨k', v'⟩ := hd
    by_cases hk : k' = k
    · simpa [Reflect.deleteProperty, List.filter_cons, hk] using ih
    · simpa [Reflect.deleteProperty, List.filter_cons, hk, List.lookup_cons,
        beq_false_of_ne (Ne.symm hk)] using ih

theorem Reflect.deleteProperty_of_lookup_none {o : Obj} {k : String}
    (h : o.lookup k = none) : (Reflect.deleteProperty o k).1 = o := by
  induction o with
  | nil => simp [Reflect.deleteProperty]
  | cons hd tl ih =>
    obtain ⟨k', v'⟩ := hd
    by_cases hk : k = k'
    · subst hk
      simp [List.lookup_cons] at h
    · simp only [List.lookup_cons, beq_false_of_ne hk] at h
      have htl := ih h
      simp only [Reflect.deleteProperty] at htl ⊢
      simp [List.filter_cons, beq_false_of_ne (Ne.symm hk), htl]

theorem ratToSat_natCast {n hi : Nat} (h : n ≤ hi) :
    ratToSat (n : Rat) hi = n := by
  have h0 : ¬((n : Rat) < 0) := not_lt.mpr (by positivity)
  simp [ratToSat, h0, Int.floor_natCast]
  omega

theorem ObjectExtension.set_properties_snd (o : Obj)
    (props : List (String × JsValue)) :
    (ObjectExtension.set_properties o props).2 = .ok () := by
  induction props generalizing o with
  | nil => rfl
  | cons hd tl ih =>
    obtain ⟨k, v⟩ := hd
    exact ih (Reflect.set o k v).1

theorem ObjectExtension.set_properties_fst (o : Obj)
    (props : List (String × JsValue)) :
    (ObjectExtension.set_properties o props).1 =
      props.foldl (fun acc kv => Reflect.setFields acc kv.1 kv.2) o := by
  induction props generalizing o with
  | nil => rfl
  | cons hd tl ih =>
    obtain ⟨k, v⟩ := hd
    exact ih (Reflect.setFields o k v)

theorem ObjectExtension.get_set_properties_not_mem (o : Obj)
    (props : List (String × JsValue)) {k : String}
    (h : k ∉ props.map Prod.fst) :
    Reflect.get (ObjectExtension.set_properties o props).1 k =
      Reflect.get o k := by
  induction props generalizing o with
  | nil => rfl
  | cons hd tl ih =>
    obtain ⟨k', v'⟩ := hd
    simp only [List.map_cons, List.mem_cons, not_or] at h
    calc Reflect.get (ObjectExtension.set_properties (Reflect.setFields o k' v') tl).1 k
        = Reflect.get (Reflect.setFields o k' v') k := ih _ h.2
      _ = Reflect.get o k := Reflect.get_setFields_ne o v' h.1

theorem ObjectExtension.get_set_properties_mem (o : Obj)
    (props : List (String × JsValue))
    (hnd : (props.map Prod.fst).Nodup) :
    ∀ kv ∈ props,
      Reflect.get (ObjectExtension.set_properties o props).1 kv.1 = kv.2 := by
  induction props generalizing o with
  | nil => intro kv hkv; exact absurd hkv (List.not_mem_nil kv)
  | cons hd tl ih =>
    obtain ⟨k', v'⟩ := hd
    simp only [List.map_cons, List.nodup_cons] at hnd
    intro kv hkv
    rcases List.mem_cons.mp hkv with hkv | hkv
    · subst hkv
      calc Reflect.get (ObjectExtension.set_properties (Reflect.setFields o k' v') tl).1 k'
          = Reflect.get (Reflect.setFields o k' v') k' :=
            ObjectExtension.get_set_properties_not_mem _ tl hnd.1
        _ = v' := Reflect.get_setFields_self o k' v'
    · exact ih (Reflect.setFields o k' v') hnd.2 kv hkv

/-- Claim C1, amended.  On an object with no slot named `prop`, the
specialized typed getters `get_string`, `get_bool`, `get_u8`, `get_u16`,
`get_u32`, `get_u64`, `get_f64`, `get_vec` and `get_object` return
`Err(MissingProperty(prop))`; the generic `get::<T>`, however, performs
no absence check — it hands the raw `undefined` to `T::try_from`, so it
returns that conversion's verdict (a success, or a failure wrapped by
`Error::custom`) and never `MissingProperty`; and `get_vec_u8` fails
through `try_as_vec_u8`, which never sees the property name, so its
error is a coercion error, not `MissingProperty(prop)`. -/
theorem C1_missing_property (o : Obj) (prop : String)
    (h : o.lookup prop = none) :
    ObjectExtension.get_string o prop = .error (.MissingProperty prop) ∧
    ObjectExtension.get_bool o prop = .error (.MissingProperty prop) ∧
    ObjectExtension.get_u8 o prop = .error (.MissingProperty prop) ∧
    ObjectExtension.get_u16 o prop = .error (.MissingProperty prop) ∧
    ObjectExtension.get_u32 o prop = .error (.MissingProperty prop) ∧
    ObjectExtension.get_u64 o prop = .error (.MissingProperty prop) ∧
    ObjectExtension.get_f64 o prop = .error (.MissingProperty prop) ∧
    ObjectExtension.get_vec o prop = .error (.MissingProperty prop) ∧
    ObjectExtension.get_object o prop = .error (.MissingProperty prop) ∧
    (∀ (T : Type) (conv : Conv T),
      ObjectExtension.get o prop conv = convKernel conv .undefined ∧
      ∀ e : Error, ObjectExtension.get o prop conv = .error e →
        ∃ msg, e = .custom msg) ∧
    ObjectExtension.get_vec_u8 o prop =
      .error (.custom "expected hex string or byte array") := by
  have hg : Reflect.get o prop = .undefined := Reflect.get_of_lookup_none h
  refine ⟨?_, ?_, ?_, ?_, ?_, ?_, ?_, ?_, ?_, ?_, ?_⟩
  · simp [ObjectExtension.get_string, try_get_string_from_prop, hg, stringOfProp]
  · simp [ObjectExtension.get_bool, try_get_bool_from_prop, hg, boolOfProp]
  · simp [ObjectExtension.get_u8, try_get_u8_from_prop, hg, numOfProp]
  · simp [ObjectExtension.get_u16, try_get_u16_from_prop, hg, numOfProp]
  · simp [ObjectExtension.get_u32, try_get_u32_from_prop, hg, numOfProp]
  · simp [ObjectExtension.get_u64, try_get_u64_from_prop, hg, numOfProp]
  · simp [ObjectExtension.get_f64, try_get_f64_from_prop, hg, f64OfProp]
  · simp [ObjectExtension.get_vec, try_get_vec_from_prop, hg, vecOfProp]
  · simp [ObjectExtension.get_object, hg, objectTryFrom, JsValue.isObjectKind]
  · intro T conv
    refine ⟨by simp [ObjectExtension.get, convKernel, hg], ?_⟩
    intro e he
    simp only [ObjectExtension.get, hg] at he
    cases hc : conv JsValue.undefined with
    | ok t => simp [hc] at he
    | error msg =>
      simp only [hc] at he
      exact ⟨msg, by injection he with h1; exact h1.symm⟩
  · simp [ObjectExtension.get_vec_u8, hg, JsValue.try_as_vec_u8]

/-- Claim C1, counterexample to the claim as stated.  The generic
`get::<T>` instantiated at `T = JsValue` (`TryFrom<JsValue> for JsValue`
holds reflexively and is infallible) on an object with no `"missing"`
slot returns `Ok(undefined)` — a success value, not
`Err(MissingProperty("missing"))`; and `get_vec_u8` returns a coercion
error that does not mention the property. -/
theorem C1_missing_property_cex :
    ([] : Obj).lookup "missing" = none ∧
    ObjectExtension.get ([] : Obj) "missing" (fun v => Except.ok v) =
      Except.ok JsValue.undefined ∧
    ObjectExtension.get ([] : Obj) "missing" (fun v => Except.ok v) ≠
      Except.error (Error.MissingProperty "missing") ∧
    ObjectExtension.get_vec_u8 ([] : Obj) "missing" ≠
      Except.error (Error.MissingProperty "missing") := by
  refine ⟨rfl, rfl, fun hc => ?_, fun hc => ?_⟩
  · exact Except.noConfusion hc
  · exact absurd hc (by decide)

/-- Claim C1, witness for the amended theorem at a concrete input. -/
theorem C1_missing_property_witness :
    ([] : Obj).lookup "missing" = none ∧
    ObjectExtension.get_string ([] : Obj) "missing" =
      .error (.MissingProperty "missing") ∧
    ObjectExtension.get_object ([] : Obj) "missing" =
      .error (.MissingProperty "missing") :=
  ⟨rfl,
   (C1_missing_property [] "missing" rfl).1,
   (C1_missing_property [] "missing" rfl).2.2.2.2.2.2.2.2.1⟩

/-- Claim C2.  For every supported scalar kind, a write through `set` is
exactly recovered by the corresponding typed read.  Numbers are modelled
exactly (as rationals); the IEEE-754 rounding a JavaScript engine would
apply to a `u64` above `2^53` is outside the model. -/
theorem C2_set_get_roundtrip (o : Obj) (prop : String) :
    (∀ s : String, ObjectExtension.get_string
      (ObjectExtension.set o prop (.string s)).1 prop = .ok s) ∧
    (∀ b : Bool, ObjectExtension.get_bool
      (ObjectExtension.set o prop (.boolean b)).1 prop = .ok b) ∧
    (∀ n : Nat, n < 2 ^ 8 → ObjectExtension.get_u8
      (ObjectExtension.set o prop (.number (n : Rat))).1 prop = .ok n) ∧
    (∀ n : Nat, n < 2 ^ 16 → ObjectExtension.get_u16
      (ObjectExtension.set o prop (.number (n : Rat))).1 prop = .ok n) ∧
    (∀ n : Nat, n < 2 ^ 32 → ObjectExtension.get_u32
      (ObjectExtension.set o prop (.number (n : Rat))).1 prop = .ok n) ∧
    (∀ n : Nat, n < 2 ^ 64 → ObjectExtension.get_u64
      (ObjectExtension.set o prop (.number (n : Rat))).1 prop = .ok n) ∧
    (∀ q : Rat, ObjectExtension.get_f64
      (ObjectExtension.set o prop (.number q)).1 prop = .ok q) ∧
    (∀ (T : Type) (conv : Conv T) (v : JsValue) (t : T), conv v = .ok t →
      ObjectExtension.get (ObjectExtension.set o prop v).1 prop conv = .ok t) := by
  have hset : ∀ v : JsValue,
      Reflect.get (ObjectExtension.set o prop v).1 prop = v := fun v =>
    Reflect.get_setFields_self o prop v
  refine ⟨?_, ?_, ?_, ?_, ?_, ?_, ?_, ?_⟩
  · intro s
    simp [ObjectExtension.get_string, try_get_string_from_prop, hset, stringOfProp]
  · intro b
    simp [ObjectExtension.get_bool, try_get_bool_from_prop, hset, boolOfProp]
  · intro n hn
    simp [ObjectExtension.get_u8, try_get_u8_from_prop, hset, numOfProp]
    exact ratToSat_natCast (by omega)
  · intro n hn
    simp [ObjectExtension.get_u16, try_get_u16_from_prop, hset, numOfProp]
    exact ratToSat_natCast (by omega)
  · intro n hn
    simp [ObjectExtension.get_u32, try_get_u32_from_prop, hset, numOfProp]
    exact ratToSat_natCast (by omega)
  · intro n hn
    simp [ObjectExtension.get_u64, try_get_u64_from_prop, hset, numOfProp]
    exact ratToSat_natCast (by omega)
  · intro q
    simp [ObjectExtension.get_f64, try_get_f64_from_prop, hset, f64OfProp]
  · intro T conv v t hconv
    simp [ObjectExtension.get, hset, hconv]

/-- Claim C2, witness at concrete inputs. -/
theorem C2_set_get_roundtrip_witness :
    ObjectExtension.get_string
      (ObjectExtension.set [] "p" (.string "v")).1 "p" = .ok "v" ∧
    ObjectExtension.get_bool
      (ObjectExtension.set [] "p" (.boolean true)).1 "p" = .ok true ∧
    ObjectExtension.get_u8
      (ObjectExtension.set [] "p" (.number ((200 : Nat) : Rat))).1 "p" = .ok 200 ∧
    ObjectExtension.get_u64
      (ObjectExtension.set [] "p" (.number ((5 : Nat) : Rat))).1 "p" = .ok 5 :=
  ⟨(C2_set_get_roundtrip [] "p").1 "v",
   (C2_set_get_roundtrip [] "p").2.1 true,
   (C2_set_get_roundtrip [] "p").2.2.1 200 (by norm_num),
   (C2_set_get_roundtrip [] "p").2.2.2.2.2.1 5 (by norm_num)⟩

/-- Claim C3.  `try_get` returns `Ok(None)` exactly when the raw slot
reads back as the `undefined` sentinel; on a present value it returns
`Ok(Some(t))` when conversion succeeds — in particular after
`set(obj, prop, v)` with a defined `v` — and an error exactly when
conversion of the present value fails. -/
theorem C3_try_get (o : Obj) (prop : String) {T : Type} (conv : Conv T) :
    (ObjectExtension.try_get o prop conv = .ok none ↔
       Reflect.get o prop = .undefined) ∧
    (∀ t : T, Reflect.get o prop ≠ .undefined →
       conv (Reflect.get o prop) = .ok t →
       ObjectExtension.try_get o prop conv = .ok (some t)) ∧
    (∀ e : Error, ObjectExtension.try_get o prop conv = .error e →
       Reflect.get o prop ≠ .undefined ∧
       ∃ msg, conv (Reflect.get o prop) = .error msg ∧ e = .custom msg) ∧
    (∀ (v : JsValue) (t : T), v ≠ .undefined → conv v = .ok t →
       ObjectExtension.try_get (ObjectExtension.set o prop v).1 prop conv =
         .ok (some t)) := by
  refine ⟨?_, ?_, ?_, ?_⟩
  · constructor
    · intro hok
      by_contra hne
      have hb := JsValue.isUndefined_eq_false hne
      simp only [ObjectExtension.try_get, hb] at hok
      cases hc : conv (Reflect.get o prop) with
      | ok t => simp [hc] at hok
      | error msg => simp [hc] at hok
    · intro hu
      simp [ObjectExtension.try_get, hu, JsValue.isUndefined]
  · intro t hne hconv
    have hb := JsValue.isUndefined_eq_false hne
    simp [ObjectExtension.try_get, hb, hconv]
  · intro e he
    by_cases hu : Reflect.get o prop = .undefined
    · simp [ObjectExtension.try_get, hu, JsValue.isUndefined] at he
    · have hb := JsValue.isUndefined_eq_false hu
      refine ⟨hu, ?_⟩
      simp only [ObjectExtension.try_get, hb, Bool.false_eq_true,
        if_false] at he
      cases hc : conv (Reflect.get o prop) with
      | ok t => simp [hc] at he
      | error msg =>
        simp only [hc] at he
        exact ⟨msg, rfl, by injection he with h1; exact h1.symm⟩
  · intro v t hne hconv
    have hg : Reflect.get (ObjectExtension.set o prop v).1 prop = v :=
      Reflect.get_setFields_self o prop v
    have hb := JsValue.isUndefined_eq_false hne
    simp [ObjectExtension.try_get, hg, hb, hconv]

/-- Claim C3, witness at concrete inputs (with the identity conversion of
`TryFrom<JsValue> for JsValue`). -/
theorem C3_try_get_witness :
    ObjectExtension.try_get ([] : Obj) "missing" (fun v => Except.ok v) =
      .ok none ∧
    ObjectExtension.try_get
      (ObjectExtension.set [] "p" (.string "v")).1 "p" (fun v => Except.ok v) =
      .ok (some (JsValue.string "v")) :=
  ⟨(C3_try_get [] "missing" (fun v => Except.ok v)).1.mpr rfl,
   (C3_try_get [] "p" (fun v => Except.ok v)).2.2.2 (.string "v")
     (JsValue.string "v") (fun h => JsValue.noConfusion h) rfl⟩

/-- Claim C4.  `get_vec_u8` accepts both representations of a byte
sequence — the hex string `"0a1b"` and the numeric array `[10, 27]` —
and returns the identical byte sequence `[0x0a, 0x1b]` for both; on a
stored value that is neither a string nor an array it fails (with a
coercion error). -/
theorem C4_get_vec_u8 :
    ObjectExtension.get_vec_u8 [("p", .string "0a1b")] "p" = .ok [10, 27] ∧
    ObjectExtension.get_vec_u8
      [("p", .array [.number 10, .number 27])] "p" = .ok [10, 27] ∧
    (∀ (o : Obj) (prop : String),
      (∀ s, Reflect.get o prop ≠ .string s) →
      (∀ l, Reflect.get o prop ≠ .array l) →
      ObjectExtension.get_vec_u8 o prop =
        .error (.custom "expected hex string or byte array")) := by
  refine ⟨by decide, by decide, ?_⟩
  intro o prop hs hl
  cases hv : Reflect.get o prop with
  | string s => exact absurd hv (hs s)
  | array l => exact absurd hv (hl l)
  | undefined => simp [ObjectExtension.get_vec_u8, hv, JsValue.try_as_vec_u8]
  | null => simp [ObjectExtension.get_vec_u8, hv, JsValue.try_as_vec_u8]
  | boolean b => simp [ObjectExtension.get_vec_u8, hv, JsValue.try_as_vec_u8]
  | number q => simp [ObjectExtension.get_vec_u8, hv, JsValue.try_as_vec_u8]
  | object fs => simp [ObjectExtension.get_vec_u8, hv, JsValue.try_as_vec_u8]

/-- Claim C4, witness for the hypothesis-bearing part: a stored value
that is neither representation (a boolean) fails. -/
theorem C4_get_vec_u8_witness :
    ObjectExtension.get_vec_u8 [("p", JsValue.boolean true)] "p" =
      .error (.custom "expected hex string or byte array") :=
  C4_get_vec_u8.2.2 [("p", JsValue.boolean true)] "p"
    (fun _ h => JsValue.noConfusion h) (fun _ h => JsValue.noConfusion h)

/-- Claim C5, counterexample to the claim as stated.  `delete` forwards
`Reflect::deleteProperty`, and ECMAScript `OrdinaryDelete` returns `true`
when no such property exists, so `delete` on an already-absent slot
returns `Ok(true)`, not the claimed `Ok(false)`. -/
theorem C5_delete_cex :
    ([] : Obj).lookup "p" = none ∧
    (ObjectExtension.delete ([] : Obj) "p").2 = .ok true ∧
    (ObjectExtension.delete ([] : Obj) "p").2 ≠ .ok false := by
  refine ⟨rfl, rfl, fun h => ?_⟩
  exact absurd h (by decide)

/-- Claim C5, amended.  `delete(obj, prop)` after a prior
`set(obj, prop, v)` returns `Ok(true)` and leaves the slot absent (the
raw value reads back as `undefined`); `delete` on an already-absent slot
also returns `Ok(true)` — the boolean reports the store's deletion
verdict, which for configurable and for absent properties is `true`, not
whether a property existed — and leaves the object unchanged. -/
theorem C5_delete (o : Obj) (prop : String) (v : JsValue) :
    (ObjectExtension.delete (ObjectExtension.set o prop v).1 prop).2 = .ok true ∧
    Reflect.get
      (ObjectExtension.delete (ObjectExtension.set o prop v).1 prop).1 prop =
      .undefined ∧
    (o.lookup prop = none →
      (ObjectExtension.delete o prop).2 = .ok true ∧
      (ObjectExtension.delete o prop).1 = o) := by
  refine ⟨rfl, ?_, fun h => ⟨rfl, Reflect.deleteProperty_of_lookup_none h⟩⟩
  exact Reflect.get_of_lookup_none
    (Reflect.lookup_deleteProperty_self (ObjectExtension.set o prop v).1 prop)

/-- Claim C5, witness for the amended theorem at concrete inputs. -/
theorem C5_delete_witness :
    (ObjectExtension.delete
      (ObjectExtension.set ([] : Obj) "p" (.string "v")).1 "p").2 = .ok true ∧
    (ObjectExtension.delete ([] : Obj) "p").2 = .ok true ∧
    (ObjectExtension.delete ([] : Obj) "p").1 = [] :=
  ⟨(C5_delete [] "p" (.string "v")).1,
   ((C5_delete [] "p" (.string "v")).2.2 rfl).1,
   ((C5_delete [] "p" (.string "v")).2.2 rfl).2⟩

/-- Claim C6.  `set_properties` applies its writes sequentially — it is
the left fold of the store's `set` over the pairs, so every earlier
write stays applied no matter what follows (in the model of an ordinary
extensible object a write cannot fail, so the overall call always
succeeds) — and when the written keys are pairwise distinct, every
written slot is independently readable back with the value that was
written. -/
theorem C6_set_properties (o : Obj) (props : List (String × JsValue)) :
    (ObjectExtension.set_properties o props).2 = .ok () ∧
    (ObjectExtension.set_properties o props).1 =
      props.foldl (fun acc kv => Reflect.setFields acc kv.1 kv.2) o ∧
    ((props.map Prod.fst).Nodup →
      ∀ kv ∈ props,
        Reflect.get (ObjectExtension.set_properties o props).1 kv.1 = kv.2 ∧
        ObjectExtension.get_value (ObjectExtension.set_properties o props).1 kv.1 =
          .ok kv.2) := by
  refine ⟨ObjectExtension.set_properties_snd o props,
    ObjectExtension.set_properties_fst o props, fun hnd kv hkv => ?_⟩
  have hget := ObjectExtension.get_set_properties_mem o props hnd kv hkv
  exact ⟨hget, by simp [ObjectExtension.get_value, hget]⟩

/-- Claim C6, witness at concrete inputs: two distinct keys, both
readable back. -/
theorem C6_set_properties_witness :
    (ObjectExtension.set_properties ([] : Obj)
      [("a", .number 1), ("b", .string "x")]).2 = .ok () ∧
    Reflect.get (ObjectExtension.set_properties ([] : Obj)
      [("a", .number 1), ("b", .string "x")]).1 "a" = .number 1 ∧
    Reflect.get (ObjectExtension.set_properties ([] : Obj)
      [("a", .number 1), ("b", .string "x")]).1 "b" = .string "x" :=
  ⟨(C6_set_properties [] [("a", .number 1), ("b", .string "x")]).1,
   ((C6_set_properties [] [("a", .number 1), ("b", .string "x")]).2.2
     (by decide) ("a", .number 1) (List.Mem.head _)).1,
   ((C6_set_properties [] [("a", .number 1), ("b", .string "x")]).2.2
     (by decide) ("b", .string "x") (List.Mem.tail _ (List.Mem.head _))).1⟩

/-- Claim C7.  `get_object` succeeds with the stored value exactly when
the slot holds an object-kind value (`is_object`: a plain object or an
array, not `null` and not a primitive); in both failure cases — slot
missing, and slot present but not object-coercible — it returns the same
error, `MissingProperty(prop)`. -/
theorem C7_get_object (o : Obj) (prop : String) :
    (∀ w, ObjectExtension.get_object o prop = .ok w ↔
       (Reflect.get o prop = w ∧ w.isObjectKind = true)) ∧
    ((Reflect.get o prop).isObjectKind = false →
       ObjectExtension.get_object o prop = .error (.MissingProperty prop)) ∧
    (o.lookup prop = none →
       ObjectExtension.get_object o prop = .error (.MissingProperty prop)) := by
  refine ⟨?_, ?_, ?_⟩
  · intro w
    constructor
    · intro hok
      by_cases hk : (Reflect.get o prop).isObjectKind
      · simp only [ObjectExtension.get_object, objectTryFrom, hk, if_true] at hok
        injection hok with h1
        exact ⟨h1, h1 ▸ hk⟩
      · simp [ObjectExtension.get_object, objectTryFrom, hk] at hok
    · rintro ⟨hre, hkind⟩
      simp [ObjectExtension.get_object, objectTryFrom, hre, hkind]
  · intro hk
    simp [ObjectExtension.get_object, objectTryFrom, hk]
  · intro h
    have hg := Reflect.get_of_lookup_none h
    simp [ObjectExtension.get_object, objectTryFrom, hg, JsValue.isObjectKind]

/-- Claim C7, witness at concrete inputs: success on a stored object,
`MissingProperty` both on a present non-object and on an absent slot. -/
theorem C7_get_object_witness :
    ObjectExtension.get_object [("p", .object [("a", .null)])] "p" =
      .ok (.object [("a", .null)]) ∧
    ObjectExtension.get_object [("p", .string "s")] "p" =
      .error (.MissingProperty "p") ∧
    ObjectExtension.get_object ([] : Obj) "q" =
      .error (.MissingProperty "q") :=
  ⟨((C7_get_object [("p", .object [("a", .null)])] "p").1
      (.object [("a", .null)])).mpr ⟨rfl, rfl⟩,
   (C7_get_object [("p", .string "s")] "p").2.1 rfl,
   (C7_get_object [] "q").2.2 rfl⟩

/-- Claim C8.  `get_bool` on a slot holding a string (or any non-boolean
value) fails with a coercion error and never returns `Ok(false)` or any
other success; `get_string` requires the value be exactly string-kind —
a present non-string, in particular a number or a boolean, fails with a
coercion error rather than being stringified. -/
theorem C8_exact_kind (o : Obj) (prop : String) :
    (∀ s, Reflect.get o prop = .string s →
       ObjectExtension.get_bool o prop =
         .error (.custom ("property is not a boolean: " ++ prop)) ∧
       ∀ b, ObjectExtension.get_bool o prop ≠ .ok b) ∧
    (∀ v, Reflect.get o prop = v → v.asString = none → v ≠ .undefined →
       ObjectExtension.get_string o prop =
         .error (.custom ("property is not a string: " ++ prop))) := by
  constructor
  · intro s hv
    refine ⟨by simp [ObjectExtension.get_bool, try_get_bool_from_prop, hv,
      boolOfProp], ?_⟩
    intro b hb
    simp [ObjectExtension.get_bool, try_get_bool_from_prop, hv, boolOfProp] at hb
  · intro v hv hs hu
    cases v with
    | undefined => exact absurd rfl hu
    | string s => simp [JsValue.asString] at hs
    | null =>
      simp [ObjectExtension.get_string, try_get_string_from_prop, hv, stringOfProp]
    | boolean b =>
      simp [ObjectExtension.get_string, try_get_string_from_prop, hv, stringOfProp]
    | number q =>
      simp [ObjectExtension.get_string, try_get_string_from_prop, hv, stringOfProp]
    | array l =>
      simp [ObjectExtension.get_string, try_get_string_from_prop, hv, stringOfProp]
    | object fs =>
      simp [ObjectExtension.get_string, try_get_string_from_prop, hv, stringOfProp]

/-- Claim C8, witness at concrete inputs: `get_bool` on a string slot
errors, `get_string` on a number slot and on a boolean slot errors. -/
theorem C8_exact_kind_witness :
    ObjectExtension.get_bool [("p", .string "yes")] "p" =
      .error (.custom ("property is not a boolean: " ++ "p")) ∧
    ObjectExtension.get_string [("q", .number 3)] "q" =
      .error (.custom ("property is not a string: " ++ "q")) ∧
    ObjectExtension.get_string [("r", .boolean true)] "r" =
      .error (.custom ("property is not a string: " ++ "r")) :=
  ⟨((C8_exact_kind [("p", .string "yes")] "p").1 "yes" rfl).1,
   (C8_exact_kind [("q", .number 3)] "q").2 (.number 3) rfl rfl
     (fun h => JsValue.noConfusion h),
   (C8_exact_kind [("r", .boolean true)] "r").2 (.boolean true) rfl rfl
     (fun h => JsValue.noConfusion h)⟩

/-- Claim C9.  Every getter of the accessor surface is one `Reflect::get`
followed by a pure coercion kernel; run as a state transformer
(`getTraced`), a read that returns an error leaves the object exactly as
it was — and each getter of the family (the generic `get`, `get_string`,
`get_bool`, `get_u8` .. `get_u64`, `get_f64`, `get_vec`, `get_vec_u8`,
`get_object`) agrees with its traced run from the unchanged object. -/
theorem C9_failed_get_no_mutation (o : Obj) (prop : String) :
    (∀ (T : Type) (kernel : JsValue → Except Error T) (e : Error),
      (ObjectExtension.getTraced kernel o prop).2 = .error e →
      (ObjectExtension.getTraced kernel o prop).1 = o) ∧
    (∀ (T : Type) (conv : Conv T),
      ObjectExtension.getTraced (convKernel conv) o prop =
        (o, ObjectExtension.get o prop conv)) ∧
    ObjectExtension.getTraced (stringOfProp prop) o prop =
      (o, ObjectExtension.get_string o prop) ∧
    ObjectExtension.getTraced (boolOfProp prop) o prop =
      (o, ObjectExtension.get_bool o prop) ∧
    ObjectExtension.getTraced (numOfProp prop (2 ^ 8 - 1)) o prop =
      (o, ObjectExtension.get_u8 o prop) ∧
    ObjectExtension.getTraced (numOfProp prop (2 ^ 16 - 1)) o prop =
      (o, ObjectExtension.get_u16 o prop) ∧
    ObjectExtension.getTraced (numOfProp prop (2 ^ 32 - 1)) o prop =
      (o, ObjectExtension.get_u32 o prop) ∧
    ObjectExtension.getTraced (numOfProp prop (2 ^ 64 - 1)) o prop =
      (o, ObjectExtension.get_u64 o prop) ∧
    ObjectExtension.getTraced (f64OfProp prop) o prop =
      (o, ObjectExtension.get_f64 o prop) ∧
    ObjectExtension.getTraced (vecOfProp prop) o prop =
      (o, ObjectExtension.get_vec o prop) ∧
    ObjectExtension.getTraced JsValue.try_as_vec_u8 o prop =
      (o, ObjectExtension.get_vec_u8 o prop) ∧
    ObjectExtension.getTraced (objectOfProp prop) o prop =
      (o, ObjectExtension.get_object o prop) := by
  refine ⟨fun T kernel e _ => rfl, fun T conv => ?_, rfl, rfl, rfl, rfl, rfl,
    rfl, rfl, rfl, rfl, ?_⟩
  · simp only [ObjectExtension.getTraced, Reflect.getSt, ObjectExtension.get,
      convKernel]
  · simp only [ObjectExtension.getTraced, Reflect.getSt,
      ObjectExtension.get_object, objectOfProp]

/-- Claim C9, witness: a concrete failing traced read (missing property
through the string kernel) leaves the concrete object unchanged. -/
theorem C9_failed_get_no_mutation_witness :
    (ObjectExtension.getTraced (stringOfProp "p")
      [("q", JsValue.null)] "p").1 = [("q", JsValue.null)] :=
  (C9_failed_get_no_mutation [("q", JsValue.null)] "p").1 String
    (stringOfProp "p") (.MissingProperty "p") rfl

/-- Claim C10.  The specialized optional getters `try_get_string`,
`try_get_bool` and `try_get_object` return `Ok` of the kind-filtered
view of the raw value: `Ok(None)` both when the slot is absent and when
it holds a value of a non-matching kind, and never an error — unlike the
generic `try_get`, which reports a coercion error for a present value
the conversion rejects. -/
theorem C10_try_specialized (o : Obj) (prop : String) :
    ObjectExtension.try_get_string o prop = .ok (Reflect.get o prop).asString ∧
    (∀ v, Reflect.get o prop = v → v.asString = none →
       ObjectExtension.try_get_string o prop = .ok none) ∧
    (∀ e, ObjectExtension.try_get_string o prop ≠ .error e) ∧
    ObjectExtension.try_get_bool o prop = .ok (Reflect.get o prop).asBool ∧
    (∀ v, Reflect.get o prop = v → v.asBool = none →
       ObjectExtension.try_get_bool o prop = .ok none) ∧
    (∀ e, ObjectExtension.try_get_bool o prop ≠ .error e) ∧
    ObjectExtension.try_get_object o prop =
      .ok (objectTryFrom (Reflect.get o prop)) ∧
    ((Reflect.get o prop).isObjectKind = false →
       ObjectExtension.try_get_object o prop = .ok none) ∧
    (∀ e, ObjectExtension.try_get_object o prop ≠ .error e) ∧
    (∀ (T : Type) (conv : Conv T) (msg : String),
       Reflect.get o prop ≠ .undefined →
       conv (Reflect.get o prop) = .error msg →
       ObjectExtension.try_get o prop conv = .error (.custom msg)) := by
  refine ⟨rfl, ?_, ?_, rfl, ?_, ?_, rfl, ?_, ?_, ?_⟩
  · intro v hv hs
    simp [ObjectExtension.try_get_string, ObjectExtension.get_value, hv, hs]
  · intro e he
    simp [ObjectExtension.try_get_string, ObjectExtension.get_value] at he
  · intro v hv hb
    simp [ObjectExtension.try_get_bool, ObjectExtension.get_value, hv, hb]
  · intro e he
    simp [ObjectExtension.try_get_bool, ObjectExtension.get_value] at he
  · intro hk
    simp [ObjectExtension.try_get_object, objectTryFrom, hk]
  · intro e he
    simp [ObjectExtension.try_get_object] at he
  · intro T conv msg hne hconv
    have hb := JsValue.isUndefined_eq_false hne
    simp [ObjectExtension.try_get, hb, hconv]

/-- Claim C10, witness at concrete inputs: a number slot read through
`try_get_string` yields `Ok(None)`; the same slot read through the
generic `try_get` with a rejecting conversion yields a coercion error. -/
theorem C10_try_specialized_witness :
    ObjectExtension.try_get_string [("p", .number 1)] "p" = .ok none ∧
    ObjectExtension.try_get [("p", .number 1)] "p"
      (fun _ => (Except.error "no" : Except String String)) =
      .error (.custom "no") :=
  ⟨(C10_try_specialized [("p", .number 1)] "p").2.1 (.number 1) rfl rfl,
   (C10_try_specialized [("p", .number 1)] "p").2.2.2.2.2.2.2.2.2 String
     (fun _ => Except.error "no") "no" (fun h => JsValue.noConfusion h) rfl⟩

end WorkflowWasm
